import Mathlib

/-!
Verification of the GhostHub media catalog & synchronized viewing engine.

This file gives a shallow embedding of the core services of the repository
(`app/services/sync_service.py`, `app/services/media_service.py`,
`app/services/indexing_service.py`) and proves the spec's claims about them.

Modelling conventions:
* Python dicts (which preserve insertion order) are modelled as association
  lists `List (String × α)` with `dict_get` / `dict_set` mirroring
  `d.get(k)` / `d[k] = v`.
* Python sets are modelled as `Finset String`.
* Wall-clock time (`time.time()`) is passed in explicitly as a `Nat`
  parameter `now`.
* `random.shuffle(xs)` is modelled by an oracle input `rnd : List String`;
  theorems that depend on it carry the hypothesis `rnd.Perm xs`.
* Truthiness tests on lists/optional values (`if sync_active_order:`,
  `if host_order:`, `if category_id:`) are translated explicitly as
  non-emptiness tests.
-/

namespace GhostHub

/-! ### String ordering and prefix utilities (Python `sorted`, `str.startswith`) -/

/-- Lexicographic comparison of char lists by code point, as Python compares
strings. -/
def charListLe : List Char → List Char → Bool
  | [], _ => true
  | _ :: _, [] => false
  | a :: as, b :: bs =>
    if a.toNat = b.toNat then charListLe as bs else decide (a.toNat < b.toNat)

/-- Python `s1 <= s2` on strings. -/
def str_le (a b : String) : Bool := charListLe a.toList b.toList

/-- Insert a string into a sorted list (helper for `pysorted`). -/
def ins_sorted (x : String) : List String → List String
  | [] => [x]
  | y :: ys => if str_le x y then x :: y :: ys else y :: ins_sorted x ys

/-- Python `sorted(list_of_strings)`: insertion sort by code-point order. -/
def pysorted : List String → List String
  | [] => []
  | x :: xs => ins_sorted x (pysorted xs)

/-- Python `full_id.startswith(s)`. -/
def py_starts_with (s p : String) : Bool := p.toList.isPrefixOf s.toList

/-! ### Python dict as an insertion-ordered association list -/

/-- Python `d.get(k)`: first binding of the key. -/
def dict_get {α : Type} : List (String × α) → String → Option α
  | [], _ => none
  | p :: rest, k => if p.1 == k then some p.2 else dict_get rest k

/-- Python `d[k] = v`: update in place if present (keeping its position),
otherwise append at the end. -/
def dict_set {α : Type} : List (String × α) → String → α → List (String × α)
  | [], k, v => [(k, v)]
  | (k', v') :: rest, k, v =>
    if k' == k then (k, v) :: rest else (k', v') :: dict_set rest k v

/-- Python `k in d`. -/
def dict_contains {α : Type} (m : List (String × α)) (k : String) : Bool :=
  (dict_get m k).isSome

/-! ### Data model -/

/-- One file's identity/metadata as recorded in an index snapshot
(`{'name': ..., 'size': ..., 'mtime': ...}` in `media_service.py`). -/
structure MediaEntry where
  name : String
  size : Nat
  mtime : Nat
deriving DecidableEq

/-- A persisted index snapshot `{'timestamp': ..., 'files': [...]}`. -/
structure IndexData where
  timestamp : Nat
  files : List MediaEntry
deriving DecidableEq

/-- The shared media state `current_media_state` of `sync_service.py`. -/
structure CurrentMedia where
  category_id : Option String
  file_url : Option String
  index : Int
  timestamp : Nat
deriving DecidableEq

/-- Result of `SyncService.get_status`. -/
structure SyncStatus where
  active : Bool
  is_host : Bool
deriving DecidableEq

/-- Events emitted on the socket (`socketio.emit(...)` calls). -/
inductive SyncEvent
  | sync_enabled (host_session_id : Option String) (media : CurrentMedia)
  | sync_disabled
  | sync_state (media : CurrentMedia)
deriving DecidableEq

/-- The global mutable state of `sync_service.py` relevant to sync mode:
`SYNC_MODE_ENABLED`, `HOST_SESSION_ID`, `current_media_state`,
`_sync_session_order`. -/
structure SyncState where
  sync_mode_enabled : Bool
  host_session_id : Option String
  current_media_state : CurrentMedia
  sync_session_order : List (String × List String)
deriving DecidableEq

/-- The last known state for one session (`_session_states` values). -/
structure SessionState where
  category_id : Option String
  index : Int
  media_order : Option (List String)
  timestamp : Nat
deriving DecidableEq

/-- Per-(category, session) shuffle tracking data
(`seen_files_tracker[cat][sess]` in `media_service.py`). -/
structure SessionData where
  seen : Finset String
  order : List String
  last_access : Nat
deriving DecidableEq

/-- The global mutable state of `media_service.py`: `seen_files_tracker`,
`sync_mode_order`, `last_session_cleanup`. -/
structure MediaState where
  seen_files_tracker : List (String × List (String × SessionData))
  sync_mode_order : List (String × List String)
  last_session_cleanup : Nat
deriving DecidableEq

/-- A media dict passed as `initial_media` whose three keys
`category_id`, `file_url`, `index` are all present (the `all(k in ...)`
check of `toggle_sync_mode`); a dict missing a key is modelled as `none`
at the call site. -/
structure InitialMedia where
  category_id : Option String
  file_url : Option String
  index : Int
deriving DecidableEq

/-! ### MediaService.get_session_order -/

/-- `MediaService.get_session_order(category_id, session_id)`. -/
def get_session_order (ms : MediaState) (category_id session_id : String) :
    Option (List String) :=
  match dict_get ms.seen_files_tracker category_id with
  | none => none
  | some sessions => (dict_get sessions session_id).map (·.order)

/-! ### SyncService -/

/-- `SyncService.get_status()`: `is_host = SYNC_MODE_ENABLED and
session_id == HOST_SESSION_ID`. -/
def get_status (st : SyncState) (session_id : Option String) : SyncStatus :=
  { active := st.sync_mode_enabled
    is_host := st.sync_mode_enabled && (session_id == st.host_session_id) }

/-- `SyncService.get_sync_order(category_id)`. -/
def get_sync_order (st : SyncState) (category_id : String) : Option (List String) :=
  dict_get st.sync_session_order category_id

/-- `SyncService.get_current_media()`. -/
def get_current_media (st : SyncState) : Except String CurrentMedia :=
  if !st.sync_mode_enabled then .error "Sync mode not enabled"
  else .ok st.current_media_state

/-- `SyncService.toggle_sync_mode(enable, initial_media)`.
The `ms : MediaState` parameter stands for the media service state consulted
through `MediaService.get_session_order`. Returns the new sync state, the
events emitted, and the status dictionary returned to the caller. -/
def toggle_sync_mode (st : SyncState) (ms : MediaState) (session_id : Option String)
    (enable : Bool) (initial_media : Option InitialMedia) (now : Nat) :
    SyncState × List SyncEvent × SyncStatus :=
  match session_id with
  | none => (st, [], get_status st none)
  | some sid =>
    if enable && !st.sync_mode_enabled then
      let host : Option String := some sid
      match initial_media with
      | some im =>
        let cms : CurrentMedia :=
          { category_id := im.category_id, file_url := im.file_url
            index := im.index, timestamp := now }
        let new_order :=
          match im.category_id with
          | some cid =>
            if cid ≠ "" then
              match get_session_order ms cid sid with
              | some host_order =>
                if host_order ≠ [] then dict_set st.sync_session_order cid host_order
                else st.sync_session_order
              | none => st.sync_session_order
            else st.sync_session_order
          | none => st.sync_session_order
        let st' : SyncState :=
          { sync_mode_enabled := true, host_session_id := host
            current_media_state := cms, sync_session_order := new_order }
        (st', [SyncEvent.sync_enabled host cms], get_status st' (some sid))
      | none =>
        let cms : CurrentMedia :=
          { category_id := none, file_url := none, index := 0, timestamp := now }
        let st' : SyncState :=
          { st with sync_mode_enabled := true, host_session_id := host
                    current_media_state := cms }
        (st', [SyncEvent.sync_enabled host cms], get_status st' (some sid))
    else if !enable && st.sync_mode_enabled then
      let cms : CurrentMedia :=
        { category_id := none, file_url := none, index := 0, timestamp := now }
      let st' : SyncState :=
        { sync_mode_enabled := false, host_session_id := none
          current_media_state := cms, sync_session_order := [] }
      (st', [SyncEvent.sync_disabled], get_status st' (some sid))
    else
      (st, [], get_status st (some sid))

/-- `SyncService.update_current_media(category_id, file_url, index)`.
Returns the new sync state, emitted events, and the `(success, error)` pair.
The `isinstance` checks of the source always pass in this typed embedding. -/
def update_current_media (st : SyncState) (ms : MediaState)
    (session_id : Option String) (category_id : String) (file_url : Option String)
    (index : Int) (now : Nat) :
    SyncState × List SyncEvent × Bool × Option String :=
  if !st.sync_mode_enabled then
    (st, [], false, some "Sync mode not enabled")
  else if session_id != st.host_session_id then
    (st, [], false, some "Only the host can update the current media")
  else
    let new_order :=
      if st.current_media_state.category_id ≠ some category_id then
        match st.host_session_id with
        | some hid =>
          match get_session_order ms category_id hid with
          | some host_order =>
            if host_order ≠ [] then dict_set st.sync_session_order category_id host_order
            else st.sync_session_order
          | none => st.sync_session_order
        | none => st.sync_session_order
      else st.sync_session_order
    let cms : CurrentMedia :=
      { category_id := some category_id, file_url := file_url
        index := index, timestamp := now }
    let st' : SyncState :=
      { st with current_media_state := cms, sync_session_order := new_order }
    (st', [SyncEvent.sync_state cms], true, none)

/-- `SyncService.get_session_state(session_id_or_prefix)`: exact dict lookup
first; if that fails and the identifier is shorter than 16 characters, a
prefix scan in registration (insertion) order; otherwise absent. -/
def get_session_state (states : List (String × SessionState)) (s : String) :
    Option SessionState :=
  match dict_get states s with
  | some st => some st
  | none =>
    if s.length < 16 then
      (states.find? (fun p => py_starts_with p.1 s)).map (·.2)
    else
      none

/-! ### IndexingService -/

/-- One entry of `async_index_status` in `indexing_service.py`. -/
structure IndexJob where
  status : String
  progress : Nat
  files : List MediaEntry
  timestamp : Nat
  total_files : Nat
  processed_files : Nat
deriving DecidableEq

/-- One task put on `index_task_queue`. -/
structure IndexTask where
  category_id : String
  category_path : String
  category_name : String
  force_refresh : Bool
  timestamp : Nat
deriving DecidableEq

/-- The global mutable state of `indexing_service.py`: the job table and the
task queue. -/
structure IndexingState where
  async_index_status : List (String × IndexJob)
  index_task_queue : List IndexTask
deriving DecidableEq

/-- `IndexingService.start_async_indexing(category_id, category_path,
category_name, force_refresh)`: no-op returning the existing job while one is
`running`; otherwise registers a fresh `running` job and queues a task. -/
def start_async_indexing (ist : IndexingState)
    (category_id category_path category_name : String) (force_refresh : Bool)
    (now : Nat) : IndexingState × IndexJob :=
  let start_new : IndexingState × IndexJob :=
    let status_info : IndexJob :=
      { status := "running", progress := 0, files := [], timestamp := now
        total_files := 0, processed_files := 0 }
    let task : IndexTask :=
      { category_id := category_id, category_path := category_path
        category_name := category_name, force_refresh := force_refresh
        timestamp := now }
    ({ async_index_status := dict_set ist.async_index_status category_id status_info
       index_task_queue := ist.index_task_queue ++ [task] },
     status_info)
  match dict_get ist.async_index_status category_id with
  | some job => if job.status = "running" then (ist, job) else start_new
  | none => start_new

/-! ### MediaService._load_or_rebuild_index -/

/-- Outcome of `MediaService._load_or_rebuild_index`: the metadata served to
the caller, the index on disk after the call, and whether the directory was
re-scanned. -/
structure IndexLoadResult where
  files : List MediaEntry
  stored : IndexData
  scanned : Bool
deriving DecidableEq

/-- `MediaService._load_or_rebuild_index(category_path, ..., force_refresh,
cache_expiry)`. `stored` is the snapshot currently on disk (`load_index`);
`scan` is the result of listing the directory (`none` when the path is
missing, not a directory, or unreadable — the `return None` error paths).
`none` overall mirrors the source's `return None`. -/
def load_or_rebuild_index (stored : Option IndexData) (force_refresh : Bool)
    (cache_expiry now : Nat) (scan : Option (List MediaEntry)) :
    Option IndexLoadResult :=
  let rebuild : Option IndexLoadResult :=
    match scan with
    | none => none
    | some current_files_metadata =>
      some { files := current_files_metadata
             stored := { timestamp := now, files := current_files_metadata }
             scanned := true }
  match (if force_refresh then none else stored) with
  | some index_data =>
    if now - index_data.timestamp ≤ cache_expiry then
      some { files := index_data.files, stored := index_data, scanned := false }
    else rebuild
  | none => rebuild

/-! ### MediaService ordering and pagination -/

/-- `MAX_SESSIONS_PER_CATEGORY` in `media_service.py`. -/
def MAX_SESSIONS_PER_CATEGORY : Nat := 50

/-- `DEFAULT_PAGE_SIZE` from the app config. -/
def DEFAULT_PAGE_SIZE : Nat := 10

/-- Insert by a `Nat` key into a key-sorted list (helper for `sort_by_key`). -/
def ins_sorted_by {α : Type} (key : α → Nat) (x : α) : List α → List α
  | [] => [x]
  | y :: ys => if key x ≤ key y then x :: y :: ys else y :: ins_sorted_by key x ys

/-- Python `sorted(items, key=...)` for a `Nat` key. -/
def sort_by_key {α : Type} (key : α → Nat) : List α → List α
  | [] => []
  | x :: xs => ins_sorted_by key x (sort_by_key key xs)

/-- Remove the `k` oldest sessions (smallest `last_access`) from a category's
session dict, as `clean_sessions` does when over the per-category cap. -/
def remove_oldest (sessions : List (String × SessionData)) (k : Nat) :
    List (String × SessionData) :=
  let victims := ((sort_by_key (fun p => p.2.last_access) sessions).take k).map (·.1)
  sessions.filter (fun p => !victims.contains p.1)

/-- `MediaService.clean_sessions()`: a no-op within 300 s of the previous
cleanup; otherwise drops expired sessions, enforces the per-category cap by
evicting the oldest, and drops empty category entries. -/
def clean_sessions (ms : MediaState) (now session_expiry : Nat) : MediaState :=
  if now - ms.last_session_cleanup ≤ 300 then ms
  else
    let tracker' := ms.seen_files_tracker.filterMap (fun cs =>
      let kept := cs.2.filter (fun p => !decide (session_expiry < now - p.2.last_access))
      let capped :=
        if MAX_SESSIONS_PER_CATEGORY < kept.length then
          remove_oldest kept (kept.length - MAX_SESSIONS_PER_CATEGORY)
        else kept
      if capped.isEmpty then none else some (cs.1, capped))
    { ms with seen_files_tracker := tracker', last_session_cleanup := now }

/-- `MediaService._determine_file_order(all_files_metadata, category_id,
session_id, shuffle_preference, force_refresh, category_name)`.
`sync_enabled` and `sync_session_order` stand for the `SyncService` state it
consults; `now` is `time.time()`; `rnd` is the oracle for
`random.shuffle(all_filenames.copy())`. Returns the updated media state and
the chosen order of filenames. -/
def determine_file_order (all_files_metadata : List MediaEntry)
    (category_id session_id : String) (shuffle_preference force_refresh : Bool)
    (sync_enabled : Bool) (sync_session_order : List (String × List String))
    (ms : MediaState) (now : Nat) (rnd : List String) :
    MediaState × List String :=
  let all_filenames := all_files_metadata.map (·.name)
  let total_files_in_directory := all_filenames.length
  let sessions0 := (dict_get ms.seen_files_tracker category_id).getD []
  let sd0 : SessionData :=
    match dict_get sessions0 session_id with
    | none => { seen := ∅, order := [], last_access := now }
    | some sd => { sd with last_access := now }
  let write_back := fun (sd : SessionData) (ms' : MediaState) =>
    { ms' with seen_files_tracker :=
        dict_set ms'.seen_files_tracker category_id (dict_set sessions0 session_id sd) }
  let rest : Unit → MediaState × List String := fun _ =>
    if shuffle_preference then
      if sd0.order = [] ∨ force_refresh ∨ total_files_in_directory ≤ sd0.seen.card then
        let seen1 := if total_files_in_directory ≤ sd0.seen.card then (∅ : Finset String)
                     else sd0.seen
        let sd1 : SessionData := { sd0 with seen := seen1, order := rnd }
        (write_back sd1 ms, rnd)
      else
        (write_back sd0 ms, sd0.order)
    else
      let new_sync_mode_order :=
        if force_refresh ∨ ¬ dict_contains ms.sync_mode_order category_id then
          dict_set ms.sync_mode_order category_id (pysorted all_filenames)
        else ms.sync_mode_order
      let sd1 : SessionData :=
        if sd0.order ≠ [] ∨ sd0.seen ≠ ∅ then { sd0 with order := [], seen := ∅ }
        else sd0
      let ms1 := { ms with sync_mode_order := new_sync_mode_order }
      (write_back sd1 ms1, (dict_get new_sync_mode_order category_id).getD [])
  match (if sync_enabled then dict_get sync_session_order category_id else none) with
  | some sync_active_order =>
    if sync_active_order ≠ [] then
      let sd1 : SessionData :=
        if sd0.order ≠ [] ∨ sd0.seen ≠ ∅ then { sd0 with order := [], seen := ∅ }
        else sd0
      (write_back sd1 ms, sync_active_order)
    else rest ()
  | none => rest ()

/-- The page-clamping step of `MediaService.list_media_files`: when
`start_index = (page-1)*limit` falls past a non-empty order, the page is
replaced by the last valid page `total_pages = ceil(len/limit)`. -/
def clamp_page (len page limit : Nat) : Nat :=
  if len ≤ (page - 1) * limit ∧ 0 < len then (len + limit - 1) / limit else page

/-- The pagination block of `MediaService.list_media_files` (1-based pages;
in both the clamped and the unclamped case the start index is
`(page-1)*limit` for the effective page). Returns the effective page number
and the slice `files[start:end]`. -/
def clamp_paginate (files_to_paginate : List String) (page limit : Nat) :
    Nat × List String :=
  let pg := clamp_page files_to_paginate.length page limit
  let start_index := (pg - 1) * limit
  let end_index := min (start_index + limit) files_to_paginate.length
  (pg,
   if start_index < files_to_paginate.length then
     (files_to_paginate.drop start_index).take (end_index - start_index)
   else [])

/-- Marking the paginated filenames as seen for a shuffle session
(the `session_data["seen"].add(filename)` loop of `list_media_files`). -/
def mark_seen (ms : MediaState) (category_id session_id : String)
    (names : List String) : MediaState :=
  match dict_get ms.seen_files_tracker category_id with
  | none => ms
  | some sessions =>
    match dict_get sessions session_id with
    | none => ms
    | some sd =>
      let sd' : SessionData := { sd with seen := sd.seen ∪ names.toFinset }
      { ms with seen_files_tracker :=
          dict_set ms.seen_files_tracker category_id (dict_set sessions session_id sd') }

/-- Pagination info returned by `list_media_files`. -/
structure Pagination where
  page : Nat
  limit : Nat
  total : Nat
  hasMore : Bool
deriving DecidableEq

/-- A successful `list_media_files` response: the names of the prepared media
entries plus the pagination dictionary. -/
structure ListResult where
  files : List String
  pagination : Pagination
deriving DecidableEq

/-- The body of `MediaService.list_media_files` after index loading and the
empty/validation checks: determine the order, paginate with clamping, mark
the page as seen for shuffle sessions, and prepare the response
(`_prepare_paginated_response_data` keeps exactly the paginated names that
still occur in the index metadata). -/
def list_media_files_core (all_files_metadata : List MediaEntry)
    (sync_enabled : Bool) (sync_session_order : List (String × List String))
    (ms : MediaState) (category_id session_id : String) (page limit : Nat)
    (force_refresh shuffle : Bool) (now : Nat) (rnd : List String) :
    MediaState × ListResult :=
  let r := determine_file_order all_files_metadata category_id session_id
    shuffle force_refresh sync_enabled sync_session_order ms now rnd
  let files_to_paginate := r.2
  let pr := clamp_paginate files_to_paginate page limit
  let paginated_filenames := pr.2
  let ms2 := if shuffle then mark_seen r.1 category_id session_id paginated_filenames
             else r.1
  let names := all_files_metadata.map (·.name)
  let prepared := paginated_filenames.filter (fun n => names.contains n)
  (ms2,
   { files := prepared
     pagination :=
       { page := pr.1, limit := limit, total := all_files_metadata.length
         hasMore := decide (pr.1 * limit < files_to_paginate.length) } })

/-- `MediaService.list_media_files(category_id, page, limit, force_refresh,
shuffle)`. `meta` is the outcome of `_load_or_rebuild_index` (`none` for its
error path, which also covers an unknown category); `sync_enabled` and
`sync_session_order` stand for the consulted `SyncService` state; `limit = 0`
models Python's falsy `limit or DEFAULT_PAGE_SIZE`. -/
def list_media_files (meta : Option (List MediaEntry)) (sync_enabled : Bool)
    (sync_session_order : List (String × List String)) (ms : MediaState)
    (category_id session_id : String) (page limit_arg : Nat)
    (force_refresh shuffle : Bool) (now session_expiry : Nat)
    (rnd : List String) : MediaState × Except String ListResult :=
  let ms := clean_sessions ms now session_expiry
  let limit := if limit_arg = 0 then DEFAULT_PAGE_SIZE else limit_arg
  if page < 1 then (ms, .error "Page number must be 1 or greater.")
  else if ¬ (1 ≤ limit ∧ limit ≤ 100) then
    (ms, .error "Limit must be between 1 and 100.")
  else
    match meta with
    | none => (ms, .error "Failed to load or build index for category.")
    | some all_files_metadata =>
      if all_files_metadata.isEmpty then
        (ms, .ok { files := []
                   pagination := { page := page, limit := limit, total := 0
                                   hasMore := false } })
      else
        let r := list_media_files_core all_files_metadata sync_enabled
          sync_session_order ms category_id session_id page limit
          force_refresh shuffle now rnd
        (r.1, .ok r.2)

/-! ### Helper lemmas on the dict model -/

/-- Looking up the key just set returns the value just set. -/
theorem dict_get_set_self {α : Type} (m : List (String × α)) (k : String) (v : α) :
    dict_get (dict_set m k v) k = some v := by
  induction m with
  | nil => simp [dict_get, dict_set]
  | cons p rest ih =>
    by_cases h : p.1 == k
    · simp [dict_set, h, dict_get]
    · simp [dict_set, h, dict_get, ih]

deriving instance DecidableEq for Except

/-! ### Concrete fixtures used by witnesses -/

/-- A three-file category, as in the spec's "vacation" scenario. -/
def vacationMeta : List MediaEntry :=
  [{ name := "a.jpg", size := 100, mtime := 1 },
   { name := "b.jpg", size := 200, mtime := 2 },
   { name := "c.mp4", size := 300, mtime := 3 }]

/-- An empty media-service state whose last cleanup just happened. -/
def freshMedia : MediaState :=
  { seen_files_tracker := [], sync_mode_order := [], last_session_cleanup := 1000 }

/-- A sync state in which sync mode is enabled with host "host1". -/
def hostSync : SyncState :=
  { sync_mode_enabled := true, host_session_id := some "host1"
    current_media_state :=
      { category_id := none, file_url := none, index := 0, timestamp := 0 }
    sync_session_order := [("catA", ["x.jpg", "y.jpg"])] }

/-! ### Claim theorems: sync coordinator -/

/-- C10: a sync enable/disable toggle without a session_id cookie leaves the
sync state entirely unchanged, broadcasts nothing, and returns the current
status, whether the caller asked to enable or to disable. -/
theorem toggle_no_cookie_is_noop (st : SyncState) (ms : MediaState)
    (enable : Bool) (im : Option InitialMedia) (now : Nat) :
    toggle_sync_mode st ms none enable im now = (st, [], get_status st none) := rfl

/-- C4: while sync mode is enabled, a disable call from any viewer session
disables the flag, clears the host, resets the shared media state to its
empty initial value, removes every SyncOrder entry, and broadcasts the
disabled event to everyone. -/
theorem disable_resets_all (st : SyncState) (ms : MediaState) (sid : String)
    (im : Option InitialMedia) (now : Nat) (hEn : st.sync_mode_enabled = true) :
    toggle_sync_mode st ms (some sid) false im now =
      ({ sync_mode_enabled := false, host_session_id := none
         current_media_state :=
           { category_id := none, file_url := none, index := 0, timestamp := now }
         sync_session_order := [] },
       [SyncEvent.sync_disabled],
       { active := false, is_host := false }) := by
  simp [toggle_sync_mode, get_status, hEn]

/-- Witness for C4: a concrete viewer (not the host) disabling sync mode. -/
theorem disable_resets_all_witness :
    toggle_sync_mode hostSync freshMedia (some "viewer2") false none 77 =
      ({ sync_mode_enabled := false, host_session_id := none
         current_media_state :=
           { category_id := none, file_url := none, index := 0, timestamp := 77 }
         sync_session_order := [] },
       [SyncEvent.sync_disabled],
       { active := false, is_host := false }) :=
  disable_resets_all hostSync freshMedia "viewer2" none 77 (by decide)

/-- C2: while sync mode is enabled, a position update from a session other
than the host is rejected with the authorization error and changes nothing;
the same call from the host succeeds and the new state (category, url, index,
timestamp) is what a subsequent state query returns. -/
theorem update_media_host_authority (st : SyncState) (ms : MediaState)
    (sid : Option String) (cat : String) (url : Option String) (idx : Int)
    (now : Nat) (hEn : st.sync_mode_enabled = true) :
    (sid ≠ st.host_session_id →
      update_current_media st ms sid cat url idx now =
        (st, [], false, some "Only the host can update the current media")) ∧
    (sid = st.host_session_id →
      (update_current_media st ms sid cat url idx now).2.2 = (true, none) ∧
      get_current_media (update_current_media st ms sid cat url idx now).1 =
        .ok { category_id := some cat, file_url := url, index := idx
              timestamp := now }) := by
  constructor
  · intro h
    simp [update_current_media, hEn, h]
  · intro h
    simp [update_current_media, get_current_media, hEn, h]

/-- Witness for C2: a non-host update is rejected with no state change; the
host's update is visible in the subsequent state query. -/
theorem update_media_host_authority_witness :
    update_current_media hostSync freshMedia (some "viewer2") "catB" (some "u") 3 42 =
      (hostSync, [], false, some "Only the host can update the current media") ∧
    get_current_media
        (update_current_media hostSync freshMedia (some "host1") "catB" (some "u") 3 42).1 =
      .ok { category_id := some "catB", file_url := some "u", index := 3
            timestamp := 42 } := by
  refine ⟨(update_media_host_authority hostSync freshMedia (some "viewer2") "catB"
            (some "u") 3 42 rfl).1 (by decide), ?_⟩
  exact ((update_media_host_authority hostSync freshMedia (some "host1") "catB"
          (some "u") 3 42 rfl).2 (by decide)).2

/-- C9: session lookup tries the exact key first; failing that, if the
identifier is shorter than the 16-character heuristic it returns the first
registered session whose id starts with it; otherwise it returns absent
without a prefix scan. -/
theorem session_lookup_cases (states : List (String × SessionState)) (s : String) :
    (∀ v, dict_get states s = some v → get_session_state states s = some v) ∧
    (dict_get states s = none → s.length < 16 →
      get_session_state states s =
        (states.find? (fun p => py_starts_with p.1 s)).map (·.2)) ∧
    (dict_get states s = none → 16 ≤ s.length →
      get_session_state states s = none) := by
  refine ⟨?_, ?_, ?_⟩
  · intro v hv
    simp [get_session_state, hv]
  · intro hnone hshort
    simp [get_session_state, hnone, hshort]
  · intro hnone hlong
    simp [get_session_state, hnone, Nat.not_lt.mpr hlong]

/-- Registered sessions used by the C9 witness. -/
def sessStates : List (String × SessionState) :=
  [("abcdefgh90123456", { category_id := some "c1", index := 1, media_order := none
                          timestamp := 5 }),
   ("abzz", { category_id := some "c2", index := 2, media_order := none
              timestamp := 6 })]

/-- Witness for C9: an exact hit, a short-prefix hit on the first matching
session, and a long identifier with no exact match yielding absent. -/
theorem session_lookup_cases_witness :
    get_session_state sessStates "abzz" =
      some { category_id := some "c2", index := 2, media_order := none
             timestamp := 6 } ∧
    get_session_state sessStates "abc" =
      some { category_id := some "c1", index := 1, media_order := none
             timestamp := 5 } ∧
    get_session_state sessStates "zzzzzzzzzzzzzzzz" = none := by
  refine ⟨(session_lookup_cases sessStates "abzz").1 _ (by decide),
          ((session_lookup_cases sessStates "abc").2.1 (by decide)
            (by decide)).trans (by decide),
          (session_lookup_cases sessStates "zzzzzzzzzzzzzzzz").2.2 (by decide)
            (by decide)⟩

/-- C8: starting a background index for a category whose job is still
`running` is a no-op: no new job, no queue entry, no progress reset, and the
existing job object is returned. -/
theorem start_indexing_idempotent_while_running (ist : IndexingState)
    (cid cpath cname : String) (force : Bool) (now : Nat) (job : IndexJob)
    (hjob : dict_get ist.async_index_status cid = some job)
    (hrun : job.status = "running") :
    start_async_indexing ist cid cpath cname force now = (ist, job) := by
  simp [start_async_indexing, hjob, hrun]

/-- Indexing state used by the C8 witness: category "catC" mid-index. -/
def runningIndexing : IndexingState :=
  { async_index_status :=
      [("catC", { status := "running", progress := 40
                  files := [{ name := "a.jpg", size := 1, mtime := 1 }]
                  timestamp := 10, total_files := 5, processed_files := 2 })]
    index_task_queue := [] }

/-- Witness for C8: a duplicate request while "catC" is running returns the
existing job unchanged. -/
theorem start_indexing_idempotent_while_running_witness :
    start_async_indexing runningIndexing "catC" "/m/catC" "catC" false 99 =
      (runningIndexing,
       { status := "running", progress := 40
         files := [{ name := "a.jpg", size := 1, mtime := 1 }]
         timestamp := 10, total_files := 5, processed_files := 2 }) :=
  start_indexing_idempotent_while_running runningIndexing "catC" "/m/catC" "catC"
    false 99 _ (by decide) (by decide)

/-- C5: a catalog query within `cache_expiry` of the snapshot (and without
`force_refresh`) serves the snapshot's entries without re-scanning and keeps
its timestamp; a query after expiry, or with `force_refresh`, re-scans and
stores a strictly later snapshot timestamp. -/
theorem index_freshness (d : IndexData) (expiry : Nat)
    (scan : Option (List MediaEntry)) :
    (∀ now, now - d.timestamp ≤ expiry →
      load_or_rebuild_index (some d) false expiry now scan =
        some { files := d.files, stored := d, scanned := false }) ∧
    (∀ now fs, scan = some fs → expiry < now - d.timestamp →
      load_or_rebuild_index (some d) false expiry now scan =
        some { files := fs, stored := { timestamp := now, files := fs }
               scanned := true } ∧
      d.timestamp < now) ∧
    (∀ now fs, scan = some fs → d.timestamp < now →
      load_or_rebuild_index (some d) true expiry now scan =
        some { files := fs, stored := { timestamp := now, files := fs }
               scanned := true } ∧
      d.timestamp < now) := by
  refine ⟨?_, ?_, ?_⟩
  · intro now h
    simp [load_or_rebuild_index, h]
  · intro now fs hs h
    refine ⟨?_, by omega⟩
    simp [load_or_rebuild_index, hs, Nat.not_le.mpr h]
  · intro now fs hs h
    refine ⟨?_, h⟩
    simp [load_or_rebuild_index, hs]

/-- Witness for C5: snapshot at t=100 with expiry 300 — a query at t=200 is a
cache hit; at t=500 it re-scans with a later timestamp; a forced query at
t=150 re-scans with a later timestamp. -/
theorem index_freshness_witness :
    load_or_rebuild_index (some { timestamp := 100, files := vacationMeta })
        false 300 200 (some []) =
      some { files := vacationMeta
             stored := { timestamp := 100, files := vacationMeta }
             scanned := false } ∧
    load_or_rebuild_index (some { timestamp := 100, files := vacationMeta })
        false 300 500 (some []) =
      some { files := [], stored := { timestamp := 500, files := [] }
             scanned := true } ∧
    load_or_rebuild_index (some { timestamp := 100, files := vacationMeta })
        true 300 150 (some []) =
      some { files := [], stored := { timestamp := 150, files := [] }
             scanned := true } := by
  refine ⟨(index_freshness { timestamp := 100, files := vacationMeta } 300
            (some [])).1 200 (by decide),
          ((index_freshness { timestamp := 100, files := vacationMeta } 300
            (some [])).2.1 500 [] rfl (by decide)).1,
          ((index_freshness { timestamp := 100, files := vacationMeta } 300
            (some [])).2.2 150 [] rfl (by decide)).1⟩

/-! ### Claim theorems: pagination -/

/-- C7: on the three-file "vacation" category with limit 2 and shuffle off,
page 1 returns the first two names in sorted order with hasMore, page 2
returns the remaining name without; and hasMore is measured against the
chosen order's length (here a one-entry sync order), not the raw index
size. -/
theorem scenario_vacation :
    (list_media_files (some vacationMeta) false [] freshMedia "vacation" "s1"
        1 2 false false 1000 3600 []).2 =
      .ok { files := ["a.jpg", "b.jpg"]
            pagination := { page := 1, limit := 2, total := 3, hasMore := true } } ∧
    (list_media_files (some vacationMeta) false []
        (list_media_files (some vacationMeta) false [] freshMedia "vacation" "s1"
          1 2 false false 1000 3600 []).1 "vacation" "s1"
        2 2 false false 1000 3600 []).2 =
      .ok { files := ["c.mp4"]
            pagination := { page := 2, limit := 2, total := 3, hasMore := false } } ∧
    (list_media_files (some vacationMeta) true [("vacation", ["a.jpg"])] freshMedia
        "vacation" "s1" 1 2 false false 1000 3600 []).2 =
      .ok { files := ["a.jpg"]
            pagination := { page := 1, limit := 2, total := 3, hasMore := false } } := by
  decide

/-- C6: a page past the end of a non-empty order is clamped to the last valid
page, returning that page's (non-empty) entries; concretely, page 1000 on the
three-file category with limit 10 behaves exactly like page 1. -/
theorem pagination_clamp (files : List String) (page limit : Nat)
    (hne : files ≠ []) (hl : 1 ≤ limit)
    (hover : (files.length + limit - 1) / limit < page) :
    clamp_paginate files page limit =
      clamp_paginate files ((files.length + limit - 1) / limit) limit ∧
    (clamp_paginate files page limit).2 ≠ [] ∧
    list_media_files (some vacationMeta) false [] freshMedia "vacation" "s1"
        1000 10 false false 1000 3600 [] =
      list_media_files (some vacationMeta) false [] freshMedia "vacation" "s1"
        1 10 false false 1000 3600 [] := by
  have hn : 0 < files.length := List.length_pos.mpr hne
  have hdm := Nat.div_add_mod (files.length + limit - 1) limit
  have hmod := Nat.mod_lt (files.length + limit - 1) (show 0 < limit by omega)
  have hc : limit * ((files.length + limit - 1) / limit) =
      ((files.length + limit - 1) / limit) * limit := Nat.mul_comm _ _
  have hsub : ((files.length + limit - 1) / limit - 1) * limit =
      ((files.length + limit - 1) / limit) * limit - 1 * limit := Nat.sub_mul _ _ _
  have hF1 : files.length ≤ ((files.length + limit - 1) / limit) * limit := by omega
  have hF2 : ((files.length + limit - 1) / limit - 1) * limit < files.length := by omega
  have hmono : ((files.length + limit - 1) / limit) * limit ≤ (page - 1) * limit :=
    Nat.mul_le_mul_right limit (by omega)
  have hstart : files.length ≤ (page - 1) * limit := by omega
  have hpg : clamp_page files.length page limit =
      (files.length + limit - 1) / limit := by
    simp only [clamp_page]
    rw [if_pos ⟨hstart, hn⟩]
  have hpg2 : clamp_page files.length ((files.length + limit - 1) / limit) limit =
      (files.length + limit - 1) / limit := by
    simp only [clamp_page]
    rw [if_neg]
    rintro ⟨h, _⟩
    omega
  refine ⟨?_, ?_, by decide⟩
  · simp only [clamp_paginate]
    rw [hpg, hpg2]
  · simp only [clamp_paginate]
    rw [hpg, if_pos hF2]
    intro hnil
    rw [List.take_eq_nil_iff] at hnil
    rcases hnil with h | h
    · omega
    · have hlen := congrArg List.length h
      simp [List.length_drop] at hlen
      omega

/-- Witness for C6: page 1000 on the three-file list with limit 10 lands on
page 1 with all three names. -/
theorem pagination_clamp_witness :
    clamp_paginate ["a.jpg", "b.jpg", "c.mp4"] 1000 10 =
      (1, ["a.jpg", "b.jpg", "c.mp4"]) ∧
    (clamp_paginate ["a.jpg", "b.jpg", "c.mp4"] 1000 10).2 ≠ [] := by
  have h := pagination_clamp ["a.jpg", "b.jpg", "c.mp4"] 1000 10 (by decide)
    (by decide) (by decide)
  exact ⟨h.1.trans (by decide), h.2.1⟩

/-! ### Claim C1: sync order used verbatim by pagination -/

/-- The sync-active branch of `_determine_file_order`: when sync mode is on
and a non-empty sync order exists for the category, that order is returned
verbatim, whatever the session, shuffle preference, or random oracle. -/
theorem determine_file_order_sync_active (meta : List MediaEntry)
    (cat sess : String) (sh force : Bool) (so : List (String × List String))
    (ms : MediaState) (now : Nat) (rnd l : List String)
    (hl : dict_get so cat = some l) (hne : l ≠ []) :
    (determine_file_order meta cat sess sh force true so ms now rnd).2 = l := by
  simp [determine_file_order, hl, hne]

/-- Every filename of a clamped page slice comes from the paginated order. -/
theorem clamp_paginate_subset (files : List String) (page limit : Nat) :
    ∀ x ∈ (clamp_paginate files page limit).2, x ∈ files := by
  intro x hx
  simp only [clamp_paginate] at hx
  split at hx
  · exact List.mem_of_mem_drop (List.mem_of_mem_take hx)
  · simp at hx

/-- `_prepare_paginated_response_data` keeps a page unchanged when all its
names occur in the index metadata. -/
theorem filter_contains_eq_self (l' names : List String)
    (h : ∀ x ∈ l', x ∈ names) :
    l'.filter (fun n => names.contains n) = l' := by
  rw [List.filter_eq_self]
  intro a ha
  simpa using h a ha

/-- Unfolding of `list_media_files` when the page/limit validations pass and
the category is non-empty. -/
theorem list_media_files_valid (meta : List MediaEntry) (se : Bool)
    (so : List (String × List String)) (ms : MediaState) (cat sess : String)
    (page limit : Nat) (force sh : Bool) (now exp : Nat) (rnd : List String)
    (hp : 1 ≤ page) (h1 : 1 ≤ limit) (h2 : limit ≤ 100) (hmeta : meta ≠ []) :
    list_media_files (some meta) se so ms cat sess page limit force sh now exp rnd =
      ((list_media_files_core meta se so (clean_sessions ms now exp) cat sess page
          limit force sh now rnd).1,
       .ok (list_media_files_core meta se so (clean_sessions ms now exp) cat sess
          page limit force sh now rnd).2) := by
  have h0 : ¬ limit = 0 := by omega
  have hp' : ¬ page < 1 := by omega
  simp [list_media_files, h0, hp', h1, h2, hmeta]

/-- The response of `list_media_files_core` under an active non-empty sync
order: the page slice of the sync order itself, with pagination computed
against the sync order's length. -/
theorem list_media_files_core_sync (meta : List MediaEntry)
    (so : List (String × List String)) (ms : MediaState) (cat sess : String)
    (page limit : Nat) (force sh : Bool) (now : Nat) (rnd l : List String)
    (hl : dict_get so cat = some l) (hne : l ≠ [])
    (hsub : ∀ x ∈ l, x ∈ meta.map MediaEntry.name) :
    (list_media_files_core meta true so ms cat sess page limit force sh now rnd).2 =
      { files := (clamp_paginate l page limit).2
        pagination :=
          { page := (clamp_paginate l page limit).1, limit := limit
            total := meta.length
            hasMore := decide ((clamp_paginate l page limit).1 * limit < l.length) } } := by
  have hord := determine_file_order_sync_active meta cat sess sh force so ms now rnd l hl hne
  simp only [list_media_files_core]
  rw [hord]
  rw [filter_contains_eq_self _ _
    (fun x hx => hsub x (clamp_paginate_subset l page limit x hx))]

/-- C1: while sync mode is enabled with a non-empty SyncOrder for the
category (whose names occur in the index), every page-listing call returns
exactly the requested page slice of that SyncOrder — independent of the
session, its shuffle preference, the stored per-session state, and the random
oracle — so any two sessions requesting the same page receive identical
filename lists. -/
theorem sync_order_pagination (meta : List MediaEntry)
    (so : List (String × List String)) (l : List String) (cat : String)
    (page limit : Nat)
    (hmeta : meta ≠ []) (hl : dict_get so cat = some l) (hlne : l ≠ [])
    (hsub : ∀ x ∈ l, x ∈ meta.map MediaEntry.name)
    (hp : 1 ≤ page) (h1 : 1 ≤ limit) (h2 : limit ≤ 100) :
    (∀ (ms : MediaState) (sess : String) (force sh : Bool) (now exp : Nat)
       (rnd : List String),
      (list_media_files (some meta) true so ms cat sess page limit force sh
          now exp rnd).2 =
        .ok { files := (clamp_paginate l page limit).2
              pagination :=
                { page := (clamp_paginate l page limit).1, limit := limit
                  total := meta.length
                  hasMore :=
                    decide ((clamp_paginate l page limit).1 * limit < l.length) } }) ∧
    (∀ (ms1 ms2 : MediaState) (s1 s2 : String) (f1 f2 sh1 sh2 : Bool)
       (n1 n2 e1 e2 : Nat) (r1 r2 : List String),
      (list_media_files (some meta) true so ms1 cat s1 page limit f1 sh1 n1 e1 r1).2 =
      (list_media_files (some meta) true so ms2 cat s2 page limit f2 sh2 n2 e2 r2).2) := by
  have main : ∀ (ms : MediaState) (sess : String) (force sh : Bool)
      (now exp : Nat) (rnd : List String),
      (list_media_files (some meta) true so ms cat sess page limit force sh
          now exp rnd).2 =
        .ok { files := (clamp_paginate l page limit).2
              pagination :=
                { page := (clamp_paginate l page limit).1, limit := limit
                  total := meta.length
                  hasMore :=
                    decide ((clamp_paginate l page limit).1 * limit < l.length) } } := by
    intro ms sess force sh now exp rnd
    rw [list_media_files_valid meta true so ms cat sess page limit force sh now exp
      rnd hp h1 h2 hmeta]
    exact congrArg Except.ok
      (list_media_files_core_sync meta so (clean_sessions ms now exp) cat sess page
        limit force sh now rnd l hl hlne hsub)
  exact ⟨main, fun ms1 ms2 s1 s2 f1 f2 sh1 sh2 n1 n2 e1 e2 r1 r2 =>
    (main ms1 s1 f1 sh1 n1 e1 r1).trans (main ms2 s2 f2 sh2 n2 e2 r2).symm⟩

/-- Witness for C1: a sync order of two names served as-is to a shuffling
session; hasMore measured against the sync order. -/
theorem sync_order_pagination_witness :
    (list_media_files (some vacationMeta) true [("vacation", ["c.mp4", "a.jpg"])]
        freshMedia "vacation" "s1" 1 2 false true 1000 3600 []).2 =
      .ok { files := ["c.mp4", "a.jpg"]
            pagination := { page := 1, limit := 2, total := 3, hasMore := false } } := by
  have h := sync_order_pagination vacationMeta [("vacation", ["c.mp4", "a.jpg"])]
    ["c.mp4", "a.jpg"] "vacation" 1 2 (by decide) (by decide) (by decide)
    (by decide) (by decide) (by decide) (by decide)
  exact (h.1 freshMedia "s1" false true 1000 3600 []).trans (by decide)

/-! ### Claim C3: shuffle exhaustion cycle -/

/-- The filenames of a successful listing response (empty on error). -/
def page_files : Except String ListResult → List String
  | .ok r => r.files
  | .error _ => []

/-- The tracker entry of a (category, session) pair. -/
def tracker_entry (ms : MediaState) (cat sess : String) : Option SessionData :=
  (dict_get ms.seen_files_tracker cat).bind (fun sessions => dict_get sessions sess)

/-- Requesting `count` consecutive shuffled pages starting at `page`, without
force_refresh, collecting each page's returned filenames. -/
def run_shuffle_pages (meta : List MediaEntry) (se : Bool)
    (so : List (String × List String)) (cat sess : String)
    (limit now exp : Nat) (rnd : List String) :
    Nat → Nat → MediaState → MediaState × List (List String)
  | _, 0, ms => (ms, [])
  | page, k+1, ms =>
    let r := list_media_files (some meta) se so ms cat sess page limit false true
      now exp rnd
    let rest := run_shuffle_pages meta se so cat sess limit now exp rnd (page+1) k r.1
    (rest.1, page_files r.2 :: rest.2)

/-- Successive `limit`-sized chunks of a list. -/
def chunks_of (limit : Nat) : Nat → List String → List (List String)
  | 0, _ => []
  | k+1, l => l.take limit :: chunks_of limit k (l.drop limit)

/-- Enough `limit`-sized chunks flatten back to the original list. -/
theorem chunks_of_flatten (limit : Nat) :
    ∀ (k : Nat) (l : List String), l.length ≤ k * limit →
      (chunks_of limit k l).flatten = l := by
  intro k
  induction k with
  | zero =>
    intro l h
    simp only [Nat.zero_mul, Nat.le_zero] at h
    simp [chunks_of, List.length_eq_zero.mp h]
  | succ k ih =>
    intro l h
    have hsm : (k + 1) * limit = k * limit + limit := Nat.succ_mul k limit
    simp only [chunks_of, List.flatten_cons]
    rw [ih (l.drop limit) (by simp only [List.length_drop]; omega)]
    exact List.take_append_drop limit l

/-- `clean_sessions` is a no-op within 300 s of the previous cleanup. -/
theorem clean_sessions_noop (ms : MediaState) (now exp : Nat)
    (h : now - ms.last_session_cleanup ≤ 300) :
    clean_sessions ms now exp = ms := by
  simp [clean_sessions, h]

/-- The `end_index - start_index` slice width equals a plain `take limit`. -/
theorem slice_take {α : Type} (l : List α) (s limit : Nat) :
    (l.drop s).take (min (s + limit) l.length - s) = (l.drop s).take limit := by
  rw [List.take_eq_take]
  simp only [List.length_drop]
  omega

/-- A page whose start index is inside the order is served unclamped. -/
theorem clamp_paginate_in_range (l : List String) (page limit : Nat)
    (h : (page - 1) * limit < l.length) :
    clamp_paginate l page limit =
      (page, (l.drop ((page - 1) * limit)).take limit) := by
  have hpg : clamp_page l.length page limit = page := by
    simp only [clamp_page]
    rw [if_neg]
    rintro ⟨hh, _⟩
    omega
  simp only [clamp_paginate]
  rw [hpg, if_pos h, slice_take]

/-- Response shape of `list_media_files_core` for a shuffling caller, given
the outcome of `_determine_file_order`. -/
theorem list_media_files_core_shuffle (meta : List MediaEntry) (se : Bool)
    (so : List (String × List String)) (ms : MediaState) (cat sess : String)
    (page limit : Nat) (force : Bool) (now : Nat) (rnd : List String)
    (msD : MediaState) (ord : List String)
    (hdet : determine_file_order meta cat sess true force se so ms now rnd =
      (msD, ord)) :
    list_media_files_core meta se so ms cat sess page limit force true now rnd =
      (mark_seen msD cat sess (clamp_paginate ord page limit).2,
       { files := (clamp_paginate ord page limit).2.filter
           (fun n => (meta.map (·.name)).contains n)
         pagination :=
           { page := (clamp_paginate ord page limit).1, limit := limit
             total := meta.length
             hasMore :=
               decide ((clamp_paginate ord page limit).1 * limit < ord.length) } }) := by
  simp only [list_media_files_core, hdet, if_true]

/-- `mark_seen` on an existing tracker entry adds the page names to `seen`. -/
theorem mark_seen_entry (ms : MediaState) (cat sess : String)
    (sessions : List (String × SessionData)) (sd : SessionData)
    (names : List String)
    (h1 : dict_get ms.seen_files_tracker cat = some sessions)
    (h2 : dict_get sessions sess = some sd) :
    mark_seen ms cat sess names =
      { ms with seen_files_tracker :=
          dict_set ms.seen_files_tracker cat (dict_set sessions sess
            { sd with seen := sd.seen ∪ names.toFinset }) } := by
  simp [mark_seen, h1, h2]

/-- The tracker entry just written is the one read back. -/
theorem tracker_entry_set (ms : MediaState) (cat sess : String)
    (sessions : List (String × SessionData)) (sd : SessionData) :
    tracker_entry
      { ms with seen_files_tracker :=
          dict_set ms.seen_files_tracker cat (dict_set sessions sess sd) }
      cat sess = some sd := by
  simp [tracker_entry, dict_get_set_self]

/-- `_determine_file_order`, shuffle branch, reuse case: a stored non-empty
order with unexhausted `seen` is returned unchanged (only `last_access` is
refreshed). -/
theorem determine_shuffle_reuse (meta : List MediaEntry) (cat sess : String)
    (se : Bool) (so : List (String × List String)) (ms : MediaState) (now : Nat)
    (rnd : List String) (sessions : List (String × SessionData))
    (seen : Finset String) (ord : List String) (t : Nat)
    (hsync : (if se then dict_get so cat else none) = none)
    (h1 : dict_get ms.seen_files_tracker cat = some sessions)
    (h2 : dict_get sessions sess = some { seen := seen, order := ord, last_access := t })
    (hord : ord ≠ [])
    (hcard : seen.card < meta.length) :
    determine_file_order meta cat sess true false se so ms now rnd =
      ({ ms with seen_files_tracker :=
           dict_set ms.seen_files_tracker cat (dict_set sessions sess
             { seen := seen, order := ord, last_access := now }) }, ord) := by
  simp [determine_file_order, hsync, h1, h2, hord, Nat.not_le.mpr hcard]

/-- `_determine_file_order`, shuffle branch, fresh session: a new tracker
entry is created and a fresh random permutation becomes the order. -/
theorem determine_shuffle_fresh (meta : List MediaEntry) (cat sess : String)
    (se : Bool) (so : List (String × List String)) (ms : MediaState) (now : Nat)
    (rnd : List String)
    (hsync : (if se then dict_get so cat else none) = none)
    (hfresh : tracker_entry ms cat sess = none)
    (hN : 0 < meta.length) :
    determine_file_order meta cat sess true false se so ms now rnd =
      ({ ms with seen_files_tracker :=
           dict_set ms.seen_files_tracker cat (dict_set
             ((dict_get ms.seen_files_tracker cat).getD []) sess
             { seen := ∅, order := rnd, last_access := now }) }, rnd) := by
  rcases hcase : dict_get ms.seen_files_tracker cat with _ | sessions
  · simp [determine_file_order, hsync, hcase, dict_get, Nat.not_le.mpr hN]
  · have h2 : dict_get sessions sess = none := by
      simpa [tracker_entry, hcase] using hfresh
    simp [determine_file_order, hsync, hcase, h2, Nat.not_le.mpr hN]

/-- `_determine_file_order`, shuffle branch, exhausted session: once `seen`
covers the whole set, `seen` is cleared and a fresh permutation replaces the
order. -/
theorem determine_shuffle_exhausted (meta : List MediaEntry) (cat sess : String)
    (se : Bool) (so : List (String × List String)) (ms : MediaState) (now : Nat)
    (rnd : List String) (sessions : List (String × SessionData))
    (seen : Finset String) (ord : List String) (t : Nat)
    (hsync : (if se then dict_get so cat else none) = none)
    (h1 : dict_get ms.seen_files_tracker cat = some sessions)
    (h2 : dict_get sessions sess = some { seen := seen, order := ord, last_access := t })
    (hcard : meta.length ≤ seen.card) :
    determine_file_order meta cat sess true false se so ms now rnd =
      ({ ms with seen_files_tracker :=
           dict_set ms.seen_files_tracker cat (dict_set sessions sess
             { seen := ∅, order := rnd, last_access := now }) }, rnd) := by
  simp [determine_file_order, hsync, h1, h2, hcard]

/-- One shuffled page request in the reuse regime: the stored order `ord` is
paginated, the page's names are added to `seen`, and the cleanup clock is
untouched. -/
theorem shuffle_page_reuse (meta : List MediaEntry) (se : Bool)
    (so : List (String × List String)) (cat sess : String)
    (page limit now exp : Nat) (rnd : List String) (ms : MediaState)
    (sessions : List (String × SessionData)) (seen : Finset String)
    (ord : List String) (t : Nat)
    (hsync : (if se then dict_get so cat else none) = none)
    (hclean : now - ms.last_session_cleanup ≤ 300)
    (h1 : dict_get ms.seen_files_tracker cat = some sessions)
    (h2 : dict_get sessions sess = some { seen := seen, order := ord, last_access := t })
    (hord : ord ≠ [])
    (hcard : seen.card < meta.length)
    (hsub : ∀ x ∈ ord, x ∈ meta.map (·.name))
    (hp : 1 ≤ page) (hl1 : 1 ≤ limit) (hl2 : limit ≤ 100) (hmeta : meta ≠ []) :
    page_files (list_media_files (some meta) se so ms cat sess page limit false
        true now exp rnd).2 = (clamp_paginate ord page limit).2 ∧
    tracker_entry (list_media_files (some meta) se so ms cat sess page limit false
        true now exp rnd).1 cat sess =
      some { seen := seen ∪ (clamp_paginate ord page limit).2.toFinset
             order := ord, last_access := now } ∧
    (list_media_files (some meta) se so ms cat sess page limit false true now exp
        rnd).1.last_session_cleanup = ms.last_session_cleanup := by
  have hdet := determine_shuffle_reuse meta cat sess se so ms now rnd sessions seen
    ord t hsync h1 h2 hord hcard
  rw [list_media_files_valid meta se so ms cat sess page limit false true now exp
        rnd hp hl1 hl2 hmeta, clean_sessions_noop ms now exp hclean,
      list_media_files_core_shuffle meta se so ms cat sess page limit false now rnd
        _ ord hdet,
      mark_seen_entry _ cat sess
        (dict_set sessions sess { seen := seen, order := ord, last_access := now })
        { seen := seen, order := ord, last_access := now } _
        (dict_get_set_self _ _ _) (dict_get_set_self _ _ _)]
  refine ⟨?_, ?_, rfl⟩
  · simp only [page_files]
    exact filter_contains_eq_self _ _
      (fun x hx => hsub x (clamp_paginate_subset ord page limit x hx))
  · exact tracker_entry_set _ _ _ _ _

/-- One shuffled page request from a fresh session: a new permutation `rnd`
becomes the order, the requested page of it is returned, and its names become
the session's `seen` set. -/
theorem shuffle_page_fresh (meta : List MediaEntry) (se : Bool)
    (so : List (String × List String)) (cat sess : String)
    (page limit now exp : Nat) (rnd : List String) (ms : MediaState)
    (hsync : (if se then dict_get so cat else none) = none)
    (hclean : now - ms.last_session_cleanup ≤ 300)
    (hfresh : tracker_entry ms cat sess = none)
    (hN : 0 < meta.length)
    (hsub : ∀ x ∈ rnd, x ∈ meta.map (·.name))
    (hp : 1 ≤ page) (hl1 : 1 ≤ limit) (hl2 : limit ≤ 100) (hmeta : meta ≠ []) :
    page_files (list_media_files (some meta) se so ms cat sess page limit false
        true now exp rnd).2 = (clamp_paginate rnd page limit).2 ∧
    tracker_entry (list_media_files (some meta) se so ms cat sess page limit false
        true now exp rnd).1 cat sess =
      some { seen := (clamp_paginate rnd page limit).2.toFinset
             order := rnd, last_access := now } ∧
    (list_media_files (some meta) se so ms cat sess page limit false true now exp
        rnd).1.last_session_cleanup = ms.last_session_cleanup := by
  have hdet := determine_shuffle_fresh meta cat sess se so ms now rnd hsync hfresh hN
  rw [list_media_files_valid meta se so ms cat sess page limit false true now exp
        rnd hp hl1 hl2 hmeta, clean_sessions_noop ms now exp hclean,
      list_media_files_core_shuffle meta se so ms cat sess page limit false now rnd
        _ rnd hdet,
      mark_seen_entry _ cat sess
        (dict_set ((dict_get ms.seen_files_tracker cat).getD []) sess
          { seen := ∅, order := rnd, last_access := now })
        { seen := ∅, order := rnd, last_access := now } _
        (dict_get_set_self _ _ _) (dict_get_set_self _ _ _)]
  refine ⟨?_, ?_, rfl⟩
  · simp only [page_files]
    exact filter_contains_eq_self _ _
      (fun x hx => hsub x (clamp_paginate_subset rnd page limit x hx))
  · simp [tracker_entry, dict_get_set_self]

/-- One shuffled page request from an exhausted session (`seen` covers the
whole directory): `seen` is cleared, a new permutation `rnd` replaces the
order, and the requested page of the new permutation is returned. -/
theorem shuffle_page_exhausted (meta : List MediaEntry) (se : Bool)
    (so : List (String × List String)) (cat sess : String)
    (page limit now exp : Nat) (rnd : List String) (ms : MediaState)
    (sessions : List (String × SessionData)) (seen : Finset String)
    (ord : List String) (t : Nat)
    (hsync : (if se then dict_get so cat else none) = none)
    (hclean : now - ms.last_session_cleanup ≤ 300)
    (h1 : dict_get ms.seen_files_tracker cat = some sessions)
    (h2 : dict_get sessions sess = some { seen := seen, order := ord, last_access := t })
    (hcard : meta.length ≤ seen.card)
    (hsub : ∀ x ∈ rnd, x ∈ meta.map (·.name))
    (hp : 1 ≤ page) (hl1 : 1 ≤ limit) (hl2 : limit ≤ 100) (hmeta : meta ≠ []) :
    page_files (list_media_files (some meta) se so ms cat sess page limit false
        true now exp rnd).2 = (clamp_paginate rnd page limit).2 ∧
    tracker_entry (list_media_files (some meta) se so ms cat sess page limit false
        true now exp rnd).1 cat sess =
      some { seen := (clamp_paginate rnd page limit).2.toFinset
             order := rnd, last_access := now } ∧
    (list_media_files (some meta) se so ms cat sess page limit false true now exp
        rnd).1.last_session_cleanup = ms.last_session_cleanup := by
  have hdet := determine_shuffle_exhausted meta cat sess se so ms now rnd sessions
    seen ord t hsync h1 h2 hcard
  rw [list_media_files_valid meta se so ms cat sess page limit false true now exp
        rnd hp hl1 hl2 hmeta, clean_sessions_noop ms now exp hclean,
      list_media_files_core_shuffle meta se so ms cat sess page limit false now rnd
        _ rnd hdet,
      mark_seen_entry _ cat sess
        (dict_set sessions sess { seen := ∅, order := rnd, last_access := now })
        { seen := ∅, order := rnd, last_access := now } _
        (dict_get_set_self _ _ _) (dict_get_set_self _ _ _)]
  refine ⟨?_, ?_, rfl⟩
  · simp only [page_files]
    exact filter_contains_eq_self _ _
      (fun x hx => hsub x (clamp_paginate_subset rnd page limit x hx))
  · simp [tracker_entry, dict_get_set_self]

/-- Start index of any page up to the last one lies inside the list. -/
theorem page_start_lt (n limit j : Nat) (hl : 1 ≤ limit)
    (hj : j + 1 ≤ (n + limit - 1) / limit) :
    j * limit < n := by
  have h2 : ((n + limit - 1) / limit) * limit ≤ n + limit - 1 :=
    Nat.div_mul_le_self _ _
  have h1 : j * limit ≤ ((n + limit - 1) / limit - 1) * limit :=
    Nat.mul_le_mul_right limit (by omega)
  have h3 : ((n + limit - 1) / limit - 1) * limit =
      ((n + limit - 1) / limit) * limit - 1 * limit := Nat.sub_mul _ _ _
  have h4 : 1 * limit ≤ ((n + limit - 1) / limit) * limit :=
    Nat.mul_le_mul_right limit (by omega)
  rw [one_mul] at h3 h4
  generalize hq : (n + limit - 1) / limit = q at *
  generalize hX : j * limit = X at *
  generalize hY : q * limit = Y at *
  generalize hZ : (q - 1) * limit = Z at *
  omega

/-- `ceil(n/limit)` pages of size `limit` cover all `n` entries. -/
theorem ceil_mul_ge (n limit : Nat) (hl : 1 ≤ limit) :
    n ≤ ((n + limit - 1) / limit) * limit := by
  have hdm := Nat.div_add_mod (n + limit - 1) limit
  have hmod := Nat.mod_lt (n + limit - 1) (show 0 < limit by omega)
  have hc : limit * ((n + limit - 1) / limit) = ((n + limit - 1) / limit) * limit :=
    Nat.mul_comm _ _
  omega

/-- A non-empty collection needs at least one page. -/
theorem ceil_pos (n limit : Nat) (hn : 0 < n) (hl : 1 ≤ limit) :
    1 ≤ (n + limit - 1) / limit := by
  rw [Nat.le_div_iff_mul_le (show 0 < limit by omega)]
  omega

/-- Running pages j+1, …, j+k over a session whose order is the permutation
`P` and whose `seen` covers exactly the first `j·limit` names of `P` returns
the corresponding `limit`-chunks of `P` and extends `seen` accordingly,
without touching the cleanup clock. -/
theorem run_shuffle_pages_spec (meta : List MediaEntry) (se : Bool)
    (so : List (String × List String)) (cat sess : String)
    (limit now exp : Nat) (P : List String)
    (hsync : (if se then dict_get so cat else none) = none)
    (hnd : (meta.map (·.name)).Nodup)
    (hP : P.Perm (meta.map (·.name)))
    (hmeta : meta ≠ [])
    (hl1 : 1 ≤ limit) (hl2 : limit ≤ 100) :
    ∀ (k j t : Nat) (ms : MediaState),
      j + k ≤ (meta.length + limit - 1) / limit →
      now - ms.last_session_cleanup ≤ 300 →
      tracker_entry ms cat sess =
        some { seen := (P.take (j * limit)).toFinset, order := P, last_access := t } →
      (run_shuffle_pages meta se so cat sess limit now exp P (j+1) k ms).2 =
        chunks_of limit k (P.drop (j * limit)) ∧
      (∃ t', tracker_entry
          (run_shuffle_pages meta se so cat sess limit now exp P (j+1) k ms).1
          cat sess =
        some { seen := (P.take ((j + k) * limit)).toFinset, order := P
               last_access := t' }) ∧
      (run_shuffle_pages meta se so cat sess limit now exp P
          (j+1) k ms).1.last_session_cleanup = ms.last_session_cleanup := by
  intro k
  induction k with
  | zero =>
    intro j t ms hjk hclean hentry
    refine ⟨rfl, ⟨t, ?_⟩, rfl⟩
    simpa [run_shuffle_pages] using hentry
  | succ k ih =>
    intro j t ms hjk hclean hentry
    have hN : 0 < meta.length := List.length_pos.mpr hmeta
    have hNn : (meta.map (·.name)).length = meta.length := List.length_map _ _
    have hPlen : P.length = meta.length := by rw [hP.length_eq, hNn]
    have hPnd : P.Nodup := hP.nodup_iff.mpr hnd
    have hj : j * limit < meta.length :=
      page_start_lt meta.length limit j hl1 (by omega)
    have hjP : j * limit < P.length := by omega
    obtain ⟨sessions, h1, h2⟩ := Option.bind_eq_some.mp hentry
    have hPne : P ≠ [] := by
      intro h
      rw [h] at hPlen
      simp at hPlen
      omega
    have hcard : ((P.take (j * limit)).toFinset).card < meta.length := by
      rw [List.toFinset_card_of_nodup (hPnd.sublist (List.take_sublist _ _)),
        List.length_take]
      omega
    have hsubP : ∀ x ∈ P, x ∈ meta.map (·.name) := fun x hx => hP.mem_iff.mp hx
    have hstep := shuffle_page_reuse meta se so cat sess (j+1) limit now exp P ms
      sessions ((P.take (j * limit)).toFinset) P t hsync hclean h1 h2 hPne hcard
      hsubP (by omega) hl1 hl2 hmeta
    have hslice : (clamp_paginate P (j+1) limit).2 = (P.drop (j * limit)).take limit := by
      rw [clamp_paginate_in_range P (j+1) limit (by simpa using hjP)]
      simp
    have hseen : (P.take (j * limit)).toFinset ∪
        ((P.drop (j * limit)).take limit).toFinset =
        (P.take ((j + 1) * limit)).toFinset := by
      rw [Nat.succ_mul, List.take_add, List.toFinset_append]
    have hentry' : tracker_entry (list_media_files (some meta) se so ms cat sess
        (j+1) limit false true now exp P).1 cat sess =
        some { seen := (P.take ((j + 1) * limit)).toFinset, order := P
               last_access := now } := by
      rw [hstep.2.1, hslice, hseen]
    have hclean' : now - (list_media_files (some meta) se so ms cat sess (j+1)
        limit false true now exp P).1.last_session_cleanup ≤ 300 := by
      rw [hstep.2.2]
      exact hclean
    have hrest := ih (j+1) now
      (list_media_files (some meta) se so ms cat sess (j+1) limit false true now
        exp P).1 (by omega) hclean' hentry'
    have hdd : (P.drop (j * limit)).drop limit = P.drop ((j + 1) * limit) := by
      rw [List.drop_drop, Nat.succ_mul, Nat.add_comm]
    simp only [run_shuffle_pages]
    refine ⟨?_, ?_, ?_⟩
    · simp only [chunks_of]
      rw [hrest.1, hdd, hstep.1, hslice]
    · obtain ⟨t', ht'⟩ := hrest.2.1
      refine ⟨t', ?_⟩
      rw [ht']
      have harith : j + 1 + k = j + (k + 1) := by omega
      rw [harith]
    · rw [hrest.2.2, hstep.2.2]

/-- C3: for a fresh shuffling session over a category of uniquely-named
files (sync not supplying an order), requesting pages 1 through ⌈N/limit⌉ in
sequence without force_refresh returns exactly the generated permutation `P`
split into pages, so every filename appears exactly once across those pages;
the next request after exhaustion clears `seen`, replaces the order by the
fresh permutation `Q`, and serves the requested page of `Q`. -/
theorem shuffle_exhaustion (meta : List MediaEntry) (se : Bool)
    (so : List (String × List String)) (cat sess : String)
    (limit now exp : Nat) (P : List String) (ms0 : MediaState)
    (hsync : (if se then dict_get so cat else none) = none)
    (hnd : (meta.map (·.name)).Nodup)
    (hmeta : meta ≠ [])
    (hP : P.Perm (meta.map (·.name)))
    (hl1 : 1 ≤ limit) (hl2 : limit ≤ 100)
    (hfresh : tracker_entry ms0 cat sess = none)
    (hclean : now - ms0.last_session_cleanup ≤ 300) :
    (run_shuffle_pages meta se so cat sess limit now exp P 1
        ((meta.length + limit - 1) / limit) ms0).2.flatten = P ∧
    (∀ x ∈ meta.map (·.name),
      ((run_shuffle_pages meta se so cat sess limit now exp P 1
        ((meta.length + limit - 1) / limit) ms0).2.flatten).count x = 1) ∧
    (∀ (p' : Nat) (Q : List String), 1 ≤ p' → Q.Perm (meta.map (·.name)) →
      page_files (list_media_files (some meta) se so
          (run_shuffle_pages meta se so cat sess limit now exp P 1
            ((meta.length + limit - 1) / limit) ms0).1 cat sess p' limit false true
          now exp Q).2 = (clamp_paginate Q p' limit).2 ∧
      tracker_entry (list_media_files (some meta) se so
          (run_shuffle_pages meta se so cat sess limit now exp P 1
            ((meta.length + limit - 1) / limit) ms0).1 cat sess p' limit false true
          now exp Q).1 cat sess =
        some { seen := (clamp_paginate Q p' limit).2.toFinset, order := Q
               last_access := now }) := by
  have hN : 0 < meta.length := List.length_pos.mpr hmeta
  have hNn : (meta.map (·.name)).length = meta.length := List.length_map _ _
  have hPlen : P.length = meta.length := by rw [hP.length_eq, hNn]
  have hPnd : P.Nodup := hP.nodup_iff.mpr hnd
  have hsubP : ∀ x ∈ P, x ∈ meta.map (·.name) := fun x hx => hP.mem_iff.mp hx
  have htp : 1 ≤ (meta.length + limit - 1) / limit := ceil_pos meta.length limit hN hl1
  obtain ⟨k', hk'⟩ : ∃ k', (meta.length + limit - 1) / limit = k' + 1 :=
    ⟨(meta.length + limit - 1) / limit - 1, by omega⟩
  rw [hk']
  have hfirst := shuffle_page_fresh meta se so cat sess 1 limit now exp P ms0
    hsync hclean hfresh hN hsubP (by omega) hl1 hl2 hmeta
  have hslice1 : (clamp_paginate P 1 limit).2 = P.take limit := by
    rw [clamp_paginate_in_range P 1 limit (by simp [hPlen, hN])]
    simp
  have hentry1 : tracker_entry (list_media_files (some meta) se so ms0 cat sess 1
      limit false true now exp P).1 cat sess =
      some { seen := (P.take (1 * limit)).toFinset, order := P
             last_access := now } := by
    rw [hfirst.2.1, hslice1, one_mul]
  have hclean1 : now - (list_media_files (some meta) se so ms0 cat sess 1 limit
      false true now exp P).1.last_session_cleanup ≤ 300 := by
    rw [hfirst.2.2]
    exact hclean
  have hrest := run_shuffle_pages_spec meta se so cat sess limit now exp P hsync
    hnd hP hmeta hl1 hl2 k' 1 now
    (list_media_files (some meta) se so ms0 cat sess 1 limit false true now exp P).1
    (by omega) hclean1 hentry1
  have hrun2 : (run_shuffle_pages meta se so cat sess limit now exp P 1 (k'+1)
        ms0).2 =
      page_files (list_media_files (some meta) se so ms0 cat sess 1 limit false
        true now exp P).2 ::
      (run_shuffle_pages meta se so cat sess limit now exp P (1+1) k'
        (list_media_files (some meta) se so ms0 cat sess 1 limit false true now
          exp P).1).2 := rfl
  have hrun1 : (run_shuffle_pages meta se so cat sess limit now exp P 1 (k'+1)
        ms0).1 =
      (run_shuffle_pages meta se so cat sess limit now exp P (1+1) k'
        (list_media_files (some meta) se so ms0 cat sess 1 limit false true now
          exp P).1).1 := rfl
  have hlen : (P.drop limit).length ≤ k' * limit := by
    have hcov := ceil_mul_ge meta.length limit hl1
    rw [hk', Nat.succ_mul] at hcov
    simp only [List.length_drop]
    omega
  have hflat : (run_shuffle_pages meta se so cat sess limit now exp P 1 (k'+1)
      ms0).2.flatten = P := by
    rw [hrun2, List.flatten_cons, hfirst.1, hslice1, hrest.1, one_mul,
      chunks_of_flatten limit k' (P.drop limit) hlen]
    exact List.take_append_drop limit P
  refine ⟨hflat, ?_, ?_⟩
  · intro x hx
    rw [hflat]
    exact List.count_eq_one_of_mem hPnd (hP.mem_iff.mpr hx)
  · have hcleank : now - (run_shuffle_pages meta se so cat sess limit now exp P 1
        (k'+1) ms0).1.last_session_cleanup ≤ 300 := by
      rw [hrun1, hrest.2.2, hfirst.2.2]
      exact hclean
    obtain ⟨t', ht'⟩ := hrest.2.1
    have htake : P.take ((1 + k') * limit) = P := by
      apply List.take_of_length_le
      have hcov := ceil_mul_ge meta.length limit hl1
      rw [hk'] at hcov
      rw [Nat.add_comm 1 k']
      omega
    have hentryk : tracker_entry (run_shuffle_pages meta se so cat sess limit now
        exp P 1 (k'+1) ms0).1 cat sess =
        some { seen := P.toFinset, order := P, last_access := t' } := by
      rw [hrun1, ht', htake]
    have hcardP : meta.length ≤ (P.toFinset).card := by
      rw [List.toFinset_card_of_nodup hPnd]
      omega
    intro p' Q hp' hQ
    obtain ⟨sessions, h1, h2⟩ := Option.bind_eq_some.mp hentryk
    have hex := shuffle_page_exhausted meta se so cat sess p' limit now exp Q
      (run_shuffle_pages meta se so cat sess limit now exp P 1 (k'+1) ms0).1
      sessions P.toFinset P t' hsync hcleank h1 h2 hcardP
      (fun x hx => hQ.mem_iff.mp hx) hp' hl1 hl2 hmeta
    exact ⟨hex.1, hex.2.1⟩

/-- Witness for C3: three files, limit 2 — pages 1 and 2 deliver the whole
permutation exactly once; the next request reshuffles and serves page 1 of
the new permutation. -/
theorem shuffle_exhaustion_witness :
    (run_shuffle_pages vacationMeta false [] "vacation" "s1" 2 1000 3600
        ["b.jpg", "c.mp4", "a.jpg"] 1 ((vacationMeta.length + 2 - 1) / 2)
        freshMedia).2.flatten = ["b.jpg", "c.mp4", "a.jpg"] ∧
    page_files (list_media_files (some vacationMeta) false []
        (run_shuffle_pages vacationMeta false [] "vacation" "s1" 2 1000 3600
          ["b.jpg", "c.mp4", "a.jpg"] 1 ((vacationMeta.length + 2 - 1) / 2)
          freshMedia).1 "vacation" "s1" 1 2 false true 1000 3600
        ["c.mp4", "a.jpg", "b.jpg"]).2 = ["c.mp4", "a.jpg"] := by
  have h := shuffle_exhaustion vacationMeta false [] "vacation" "s1" 2 1000 3600
    ["b.jpg", "c.mp4", "a.jpg"] freshMedia (by decide) (by decide) (by decide)
    (by decide) (by decide) (by decide) (by decide) (by decide)
  exact ⟨h.1, ((h.2.2 1 ["c.mp4", "a.jpg", "b.jpg"] (by decide) (by decide)).1).trans
    (by decide)⟩

end GhostHub
